import Mathlib

/-!
# Verification of the DayZ PDA server template

Shallow embedding of the two Express/Mongoose server variants in this
repository (`src/server.js` and the unnamed sibling variant) and proofs of
the specification claims about them.

Conventions of the embedding:
* MongoDB ObjectIds are `Nat`.
* A user collection is a `List` of user records; `Model.findById` is
  `List.find?` on the id field and `document.save()` replaces every stored
  record carrying the document's id.
* Dates are `Nat` timestamps (seconds).
* `bcrypt` hashing and JWT signing are opaque: they are passed as function
  parameters, so theorems hold for every hash/signature function.
* A JS `try/catch` handler that throws maps to an `err 400 msg` outcome,
  mirroring `res.status(400).json({error: error.message})`.
-/

namespace PDA

/-! ## Auth Gateway: JWT model

`generateToken` embeds
`jwt.sign({ id: user._id, username: user.username }, JWT_SECRET, { expiresIn: '1h' })`:
the payload carries the user id, the username and the expiry instant
(issue time + 3600 seconds).  The signature is an opaque keyed function of
the payload, passed as the parameter `sign`. -/

/-- JWT payload: `{ id, username }` claims plus the `exp` claim added by
`expiresIn`. -/
structure Payload where
  id : Nat
  username : String
  exp : Nat
deriving DecidableEq

/-- A serialized JWT: payload plus signature over the payload. -/
structure Token where
  payload : Payload
  sig : Nat
deriving DecidableEq

/-- Embeds `generateToken` (helper in both server variants): signs
`{ id, username }` with a 1-hour lifetime (`exp = now + 3600`). -/
def generateToken (sign : Payload → Nat) (now : Nat) (uid : Nat) (uname : String) :
    Token :=
  { payload := { id := uid, username := uname, exp := now + 3600 }
    sig := sign { id := uid, username := uname, exp := now + 3600 } }

/-- Embeds `jwt.verify(token, JWT_SECRET, cb)`: succeeds with the decoded
payload when the signature matches and the token is not past its `exp`
instant; otherwise the callback receives an error. -/
def jwtVerify (sign : Payload → Nat) (now : Nat) (t : Token) : Option Payload :=
  if t.sig = sign t.payload ∧ now < t.payload.exp then some t.payload else none

/-- Outcome of the `authenticate` middleware. -/
inductive AuthResult where
  /-- 401 `No token provided`. -/
  | unauthorized
  /-- 403 `Invalid token`. -/
  | forbidden
  /-- `req.user = decoded`; the decoded id and username flow to the handler. -/
  | ok (id : Nat) (username : String)
deriving DecidableEq

/-- Embeds the `authenticate` middleware: 401 when the `Authorization`
header is absent, 403 when `jwt.verify` fails, otherwise the decoded
identity is exposed as `req.user`. -/
def authenticate (sign : Payload → Nat) (now : Nat) (authHeader : Option Token) :
    AuthResult :=
  match authHeader with
  | none => .unauthorized
  | some t =>
    match jwtVerify sign now t with
    | none => .forbidden
    | some p => .ok p.id p.username

/-! ## Relationship Manager (unnamed variant `src/unnamed/part_000`)

The friend-request records are embedded in the recipient user document.
The schema enum for `status` is `['PENDING', 'ACCEPTED', 'DECLINED']` with
default `'PENDING'`; statuses are kept as strings here precisely because
the listing handler compares them against the lowercase literal
`'pending'`.  Fields of the source schema not read or written by the
modelled handlers (`createdAtST`, `createdAtRT`, `lastLoginRT`, `faction`)
are omitted. -/

/-- An embedded friend-request subdocument: `{ from, to, status }` plus the
subdocument `_id` (called `rid` here; `from`/`to` are reserved words in
Lean, hence `fromId`/`toId`). -/
structure FriendReq where
  rid : Nat
  fromId : Nat
  toId : Nat
  status : String
deriving DecidableEq

/-- A stored `User` document (fields used by the modelled handlers). -/
structure User where
  uid : Nat
  username : String
  steamId : String
  passwordHash : String
  friends : List Nat
  friendRequests : List FriendReq
  isOnline : Bool
deriving DecidableEq

/-- The user collection. -/
abbrev DB := List User

/-- Embeds `User.findById(x)`. -/
def findById (db : DB) (x : Nat) : Option User :=
  db.find? (fun u => u.uid = x)

/-- Embeds `doc.save()` for a fetched-and-mutated document: the stored
record with the document's id is replaced by the document. -/
def saveUser (db : DB) (u : User) : DB :=
  db.map (fun v => if v.uid = u.uid then u else v)

/-- HTTP outcome of a friend-request handler. -/
inductive Resp where
  /-- 201. -/
  | created
  /-- 200 with a message body. -/
  | okMsg (msg : String)
  /-- 200 with the filtered request list. -/
  | okList (rs : List FriendReq)
  /-- 4xx with `{error: msg}`. -/
  | err (code : Nat) (msg : String)
deriving DecidableEq

/-- Embeds `POST /friend-requests` (handler `sendRequest` in the spec).
`newRid` is the subdocument `_id` Mongoose will assign to a pushed record.

The duplicate check in the source is
`recipient.friendRequests.find((req) => req.from.toString() === req.user.id)`:
the callback parameter `req` shadows the outer Express request, so
`req.user` is the (nonexistent) `user` property of a friend-request
subdocument, i.e. `undefined`, and evaluating `req.user.id` throws a
`TypeError` as soon as the callback runs — that is, whenever
`recipient.friendRequests` is nonempty.  The `try/catch` turns the throw
into a 400 response.  On an empty list the callback never runs, `find`
returns `undefined`, and the handler proceeds to push a PENDING record
(status defaulted by the schema). -/
def sendRequest (db : DB) (senderId toUserId newRid : Nat) : Resp × DB :=
  if senderId = toUserId then
    (.err 400 "You cannot send a friend request to yourself.", db)
  else
    match findById db toUserId with
    | none => (.err 404 "User not found", db)
    | some recipient =>
      if recipient.friends.contains senderId then
        (.err 400 "User is already your friend.", db)
      else if recipient.friendRequests.isEmpty then
        let upd := { recipient with
          friendRequests := recipient.friendRequests ++
            [{ rid := newRid, fromId := senderId, toId := toUserId,
               status := "PENDING" }] }
        (.created, saveUser db upd)
      else
        (.err 400 "Cannot read properties of undefined", db)

/-- Embeds `POST /friend-requests/respond` (handler `respond` in the spec):
validates `status ∈ {ACCEPTED, DECLINED}`, looks the subdocument up by id
(`user.friendRequests.id(requestId)`), sets its status and saves; if
ACCEPTED, fetches the sender and pushes each party onto the other's
`friends`, saving both; finally `request.remove()` deletes the subdocument
and the owner is saved once more.  A missing owner document would make
`user.friendRequests` throw (caught as 400). -/
def respond (db : DB) (ownerId requestId : Nat) (status : String) : Resp × DB :=
  if status ∉ (["ACCEPTED", "DECLINED"] : List String) then
    (.err 400 "Invalid status.", db)
  else
    match findById db ownerId with
    | none => (.err 400 "Cannot read properties of null", db)
    | some user =>
      match user.friendRequests.find? (fun r => r.rid = requestId) with
      | none => (.err 404 "Friend request not found.", db)
      | some request =>
        let user1 := { user with
          friendRequests := user.friendRequests.map
            (fun r => if r.rid = requestId then { r with status := status } else r) }
        let db1 := saveUser db user1
        if status = "ACCEPTED" then
          match findById db1 request.fromId with
          | none => (.err 404 "Sender not found.", db1)
          | some sender =>
            let user2 := { user1 with friends := user1.friends ++ [request.fromId] }
            let sender2 := { sender with friends := sender.friends ++ [ownerId] }
            let db2 := saveUser (saveUser db1 user2) sender2
            let user3 := { user2 with
              friendRequests := user2.friendRequests.filter
                (fun r => r.rid ≠ requestId) }
            (.okMsg ("Friend request " ++ status ++ "."), saveUser db2 user3)
        else
          let user3 := { user1 with
            friendRequests := user1.friendRequests.filter
              (fun r => r.rid ≠ requestId) }
          (.okMsg ("Friend request " ++ status ++ "."), saveUser db1 user3)

/-- Embeds `GET /friend-requests` (handler `listPending` in the spec): the
owner document is fetched and its embedded requests are filtered by
`req.status === 'pending'` — a lowercase literal, although the schema enum
only admits `'PENDING'`, `'ACCEPTED'`, `'DECLINED'`.  The `populate` of the
sender profile does not affect which records are returned and is omitted. -/
def listPending (db : DB) (ownerId : Nat) : Resp :=
  match findById db ownerId with
  | none => .err 400 "Cannot read properties of null"
  | some user => .okList (user.friendRequests.filter (fun r => r.status = "pending"))

/-- Embeds `POST /users`: `new User(req.body); user.save()` — an insert,
subject only to the schema's unique index on `username`. -/
def createUser (db : DB) (u : User) : Resp × DB :=
  if db.any (fun v => v.username = u.username) then
    (.err 400 "duplicate key error", db)
  else
    (.created, db ++ [u])

/-- The statuses admitted by the `friendRequests.status` schema enum. -/
def schemaStatuses : List String := ["PENDING", "ACCEPTED", "DECLINED"]

end PDA

namespace SJ

/-! ## Auth routes of `src/server.js`

The `server.js` variant declares `lastLogin: { type: Date, default: null }`
on the user schema, so the `user.lastLogin = new Date()` write in the login
handler is a schema field there.  Fields not touched by the modelled
handlers (`createdAt`, `faction`, `friends`, `friendRequests`) are
omitted. -/

/-- A stored `User` document of the `server.js` schema (fields used by
the auth handlers). -/
structure User where
  uid : Nat
  username : String
  steamId : String
  passwordHash : String
  lastLogin : Option Nat
  isOnline : Bool
deriving DecidableEq

/-- The user collection. -/
abbrev DB := List User

/-- Embeds `User.findOne({ username })`. -/
def findOneByUsername (db : DB) (username : String) : Option User :=
  db.find? (fun u => u.username = username)

/-- Embeds `doc.save()` for a fetched-and-mutated document. -/
def saveUser (db : DB) (u : User) : DB :=
  db.map (fun v => if v.uid = u.uid then u else v)

/-- Outcome of `POST /auth/login`. -/
inductive LoginResult where
  /-- 404 `User not found`. -/
  | notFound
  /-- 401 `Invalid credentials`. -/
  | unauthorized
  /-- 200 `{token, user}`. -/
  | ok (token : PDA.Token) (user : User)
deriving DecidableEq

/-- Embeds `POST /auth/login`: `findOne` by username (404 if none),
`bcrypt.compare(password, user.passwordHash)` (401 on mismatch; the compare
re-hashes the candidate and checks it against the stored hash, embedded as
`bhash password = user.passwordHash`), then `lastLogin` and `isOnline` are
set, the document saved, and `{token, user}` returned with the token from
`generateToken`. -/
def login (bhash : String → String) (sign : PDA.Payload → Nat) (db : DB)
    (now : Nat) (username password : String) : LoginResult × DB :=
  match findOneByUsername db username with
  | none => (.notFound, db)
  | some user =>
    if bhash password = user.passwordHash then
      let u := { user with lastLogin := some now, isOnline := true }
      (.ok (PDA.generateToken sign now u.uid u.username) u, saveUser db u)
    else
      (.unauthorized, db)

/-- Outcome of `POST /auth/register`. -/
inductive RegisterResult where
  /-- 201 `{token, user}`. -/
  | created (token : PDA.Token) (user : User)
  /-- 400 `{error}` — in particular the unique-index violation on
  `username` raised by `user.save()`. -/
  | badRequest
deriving DecidableEq

/-- Embeds `POST /auth/register`: hashes the password
(`bcrypt.hash(password, 10)`, embedded as the opaque salted hash `bhash`),
builds `new User({ username, passwordHash, steamId })` (`newId` is the
ObjectId Mongoose assigns), and saves it; the schema's `unique: true` index
on `username` makes the save reject a duplicate username, which the handler
maps to 400. -/
def register (bhash : String → String) (sign : PDA.Payload → Nat) (db : DB)
    (now : Nat) (username password steamId : String) (newId : Nat) :
    RegisterResult × DB :=
  let user : User :=
    { uid := newId, username := username, steamId := steamId,
      passwordHash := bhash password, lastLogin := none, isOnline := false }
  if db.any (fun v => v.username = username) then
    (.badRequest, db)
  else
    (.created (PDA.generateToken sign now user.uid user.username) user, db ++ [user])

/-- The string fields a registered user document stores. -/
def storedStrings (u : User) : List String :=
  [u.username, u.steamId, u.passwordHash]

/-! ## Message store (`src/server.js`) -/

/-- A stored `Message` document.  `recipientId = none` marks a
broadcast/global message. -/
structure Message where
  userId : Nat
  recipientId : Option Nat
  content : String
  isAnonymous : Bool
  createdAt : Nat
deriving DecidableEq

/-- The newest-first ordering embedded from `.sort({ createdAt: -1 })`. -/
def newestFirst (a b : Message) : Prop :=
  b.createdAt ≤ a.createdAt

instance : DecidableRel newestFirst :=
  fun a b => Nat.decLe b.createdAt a.createdAt

instance : IsTotal Message newestFirst :=
  ⟨fun a b => Nat.le_total b.createdAt a.createdAt⟩

instance : IsTrans Message newestFirst :=
  ⟨fun _ _ _ hab hbc => Nat.le_trans hbc hab⟩

/-- Embeds `Math.ceil(a / b)` on the nonnegative integers involved
(exact for `0 < b`). -/
def jsCeilDiv (a b : Nat) : Nat :=
  (a + b - 1) / b

/-- The `metadata` object of the global-message listing. -/
structure PageMeta where
  totalMessages : Nat
  currentPage : Nat
  totalPages : Nat
  limit : Nat
deriving DecidableEq

/-- Embeds `GET /messages/global`: counts documents with
`recipientId: null`, computes `totalPages = Math.ceil(total / limit)`,
sorts newest-first (embedded as a stable sort by descending `createdAt`),
then applies `.skip((page - 1) * limit).limit(limit)`.  The `populate` of
the author profile does not affect which messages are returned and is
omitted. -/
def messagesGlobal (msgs : List Message) (page limit : Nat) :
    PageMeta × List Message :=
  let globals := msgs.filter (fun m => m.recipientId = none)
  let totalMessages := globals.length
  let totalPages := jsCeilDiv totalMessages limit
  let sorted := List.insertionSort newestFirst globals
  (⟨totalMessages, page, totalPages, limit⟩,
    (sorted.drop ((page - 1) * limit)).take limit)

end SJ

namespace PDA

/-! ## JS object semantics for `POST /messages`

The handler builds `new Message({ ...req.body, userId: req.user.id })`.
A JSON body is modelled as a key/value list; the spread followed by the
explicit `userId:` property yields an object whose `userId` is the
authenticated id and whose other keys are those of the body. -/

/-- A JSON object as a key/value list (values kept as strings). -/
abbrev JObj := List (String × String)

/-- Property lookup on a JS object. -/
def objGet (o : JObj) (k : String) : Option String :=
  (o.find? (fun p => p.1 = k)).map (fun p => p.2)

/-- The object `{ ...o, k: v }`: every key of `o` except `k`, and `k`
bound to `v`. -/
def spreadSet (o : JObj) (k v : String) : JObj :=
  o.filter (fun p => p.1 ≠ k) ++ [(k, v)]

/-- Embeds the document constructed by `POST /messages`:
`{ ...req.body, userId: req.user.id }`, where `authId` is the id decoded
from the verified token. -/
def newMessageDoc (body : JObj) (authId : String) : JObj :=
  spreadSet body "userId" authId

/-! ## Route table and auth gating

One constructor per route registered in the source, with
`hasAuthMiddleware` recording whether the route passes the `authenticate`
middleware before its handler.  `handlerUsesStore` records that each
handler performs at least one Mongoose call against a store
(`save`, `findById`, `findOne`, `find`, `countDocuments`,
`findByIdAndUpdate` or `findByIdAndDelete`). -/

/-- The routes registered by the server. -/
inductive Route where
  | authRegister
  | authLogin
  | authLogout
  | createUser
  | getUser
  | messagesGlobal
  | messagesDirect
  | postMessage
  | getNotes
  | postNote
  | putNote
  | deleteNote
  | postFriendRequest
  | respondFriendRequest
  | listFriendRequests
deriving DecidableEq

/-- Whether the route is registered with the `authenticate` middleware.
From the source: `POST /auth/register`, `POST /auth/login` and
`POST /users` are registered without it; every other route carries it. -/
def hasAuthMiddleware : Route → Bool
  | .authRegister => false
  | .authLogin => false
  | .createUser => false
  | _ => true

/-- Every handler in the source performs at least one store operation. -/
def handlerUsesStore : Route → Bool
  | _ => true

/-- Whether processing a request on route `r` carrying `authHeader`
reaches a store operation: a route with the `authenticate` middleware runs
its handler only when the middleware calls `next()`, i.e. when the token is
accepted; a route without the middleware runs its handler directly. -/
def storeOpOnRequest (sign : Payload → Nat) (now : Nat) (r : Route)
    (authHeader : Option Token) : Bool :=
  if hasAuthMiddleware r then
    match authenticate sign now authHeader with
    | .ok _ _ => handlerUsesStore r
    | _ => false
  else
    handlerUsesStore r

end PDA

/-! ## Concrete fixtures used by witnesses and counterexamples -/

/-- A user with no friends and no requests. -/
def alice : PDA.User :=
  { uid := 1, username := "alice", steamId := "s1", passwordHash := "h1",
    friends := [], friendRequests := [], isOnline := false }

/-- A second user with no friends and no requests. -/
def bob0 : PDA.User :=
  { uid := 2, username := "bob", steamId := "s2", passwordHash := "h2",
    friends := [], friendRequests := [], isOnline := false }

/-- A PENDING request from user 3 to user 2, as the schema stores it
(status defaulted to the enum value `PENDING`). -/
def reqCarol : PDA.FriendReq :=
  { rid := 9, fromId := 3, toId := 2, status := "PENDING" }

/-- A PENDING request from user 1 (alice) to user 2 (bob). -/
def reqAlice : PDA.FriendReq :=
  { rid := 10, fromId := 1, toId := 2, status := "PENDING" }

/-- Bob holding one PENDING request from user 3. -/
def bobPend : PDA.User := { bob0 with friendRequests := [reqCarol] }

/-- Bob holding one PENDING request from alice. -/
def bobFromAlice : PDA.User := { bob0 with friendRequests := [reqAlice] }

/-- Collection: alice plus bob-with-a-request-from-user-3. -/
def dbPend : PDA.DB := [alice, bobPend]

/-- Collection: alice plus bob-with-a-request-from-alice. -/
def dbFromAlice : PDA.DB := [alice, bobFromAlice]

/-- Collection: alice plus bob, no requests. -/
def dbNoReq : PDA.DB := [alice, bob0]

/-- A stored `server.js` user whose password hash was produced by the
concrete hash `fun s => "hash:" ++ s` applied to `"pw"`. -/
def sjAlice : SJ.User :=
  { uid := 1, username := "alice", steamId := "s1", passwordHash := "hash:pw",
    lastLogin := none, isOnline := false }

/-- 25 broadcast messages with distinct creation timestamps `0..24`. -/
def exMsgs : List SJ.Message :=
  (List.range 25).map (fun i =>
    { userId := 0, recipientId := none, content := "m", isAnonymous := false,
      createdAt := i })

/-- The user document `POST /auth/register` constructs:
`new User({ username, passwordHash, steamId })` with
`passwordHash = bcrypt.hash(password, 10)` (embedded as `bhash password`)
and the remaining fields at their schema defaults. -/
def regUser (bhash : String → String) (username password steamId : String)
    (newId : Nat) : SJ.User :=
  { uid := newId, username := username, steamId := steamId,
    passwordHash := bhash password, lastLogin := none, isOnline := false }

/-! ## Intermediate document states of `POST /friend-requests/respond`

Named forms of the owner and sender documents as the handler mutates them,
used to state what `respond` leaves in the collection. -/

/-- The owner after `request.status = status` (the map touches exactly the
subdocument with the given id). -/
def ownerStatusSet (B : PDA.User) (rid : Nat) (status : String) : PDA.User :=
  { B with
    friendRequests := B.friendRequests.map
      (fun r => if r.rid = rid then { r with status := status } else r) }

/-- The owner after additionally `user.friends.push(request.from)`;
`sid` is the request's sender id. -/
def ownerWithFriend (B : PDA.User) (rid : Nat) (sid : Nat) : PDA.User :=
  { (ownerStatusSet B rid "ACCEPTED") with
    friends := (ownerStatusSet B rid "ACCEPTED").friends ++ [sid] }

/-- The sender after `sender.friends.push(req.user.id)`; `b` is the
owner's id. -/
def senderWithFriend (A : PDA.User) (b : Nat) : PDA.User :=
  { A with friends := A.friends ++ [b] }

/-- The owner after finally `request.remove()`. -/
def ownerAcceptFinal (B : PDA.User) (rid : Nat) (sid : Nat) : PDA.User :=
  { (ownerWithFriend B rid sid) with
    friendRequests := (ownerWithFriend B rid sid).friendRequests.filter
      (fun r => r.rid ≠ rid) }

/-- The owner after a DECLINED response: status set, then the
subdocument removed. -/
def ownerDeclineFinal (B : PDA.User) (rid : Nat) : PDA.User :=
  { (ownerStatusSet B rid "DECLINED") with
    friendRequests := (ownerStatusSet B rid "DECLINED").friendRequests.filter
      (fun r => r.rid ≠ rid) }

/-! ## Store lemmas: `findById` after `saveUser` -/

/-- Saving a document leaves lookups of every other id unchanged. -/
theorem findById_saveUser_ne (db : PDA.DB) (v : PDA.User) (x : Nat)
    (h : x ≠ v.uid) :
    PDA.findById (PDA.saveUser db v) x = PDA.findById db x := by
  induction db with
  | nil => rfl
  | cons w t ih =>
    show List.find? (fun u => u.uid = x)
        ((if w.uid = v.uid then v else w) :: PDA.saveUser t v) =
      List.find? (fun u => u.uid = x) (w :: t)
    by_cases hw : w.uid = v.uid
    · rw [if_pos hw]
      have h1 : ¬ ((decide (v.uid = x)) = true) := by simp [Ne.symm h]
      have h2 : ¬ ((decide (w.uid = x)) = true) := by simp [hw, Ne.symm h]
      rw [List.find?_cons_of_neg (p := fun u : PDA.User => u.uid = x) _ h1,
        List.find?_cons_of_neg (p := fun u : PDA.User => u.uid = x) _ h2]
      exact ih
    · rw [if_neg hw]
      by_cases hwx : w.uid = x
      · have h1 : (decide (w.uid = x)) = true := by simp [hwx]
        rw [List.find?_cons_of_pos (p := fun u : PDA.User => u.uid = x) _ h1,
          List.find?_cons_of_pos (p := fun u : PDA.User => u.uid = x) _ h1]
      · have h1 : ¬ ((decide (w.uid = x)) = true) := by simp [hwx]
        rw [List.find?_cons_of_neg (p := fun u : PDA.User => u.uid = x) _ h1,
          List.find?_cons_of_neg (p := fun u : PDA.User => u.uid = x) _ h1]
        exact ih

/-- Saving a document makes lookups of its id return that document,
provided a record with that id was stored. -/
theorem findById_saveUser_self (db : PDA.DB) (v u : PDA.User)
    (h : PDA.findById db v.uid = some u) :
    PDA.findById (PDA.saveUser db v) v.uid = some v := by
  induction db with
  | nil => simp [PDA.findById] at h
  | cons w t ih =>
    show List.find? (fun u => u.uid = v.uid)
        ((if w.uid = v.uid then v else w) :: PDA.saveUser t v) =
      some v
    by_cases hw : w.uid = v.uid
    · rw [if_pos hw]
      have h1 : (decide (v.uid = v.uid)) = true := by simp
      rw [List.find?_cons_of_pos (p := fun u : PDA.User => u.uid = v.uid) _ h1]
    · rw [if_neg hw]
      have h1 : ¬ ((decide (w.uid = v.uid)) = true) := by simp [hw]
      rw [List.find?_cons_of_neg (p := fun u : PDA.User => u.uid = v.uid) _ h1]
      have h' : PDA.findById t v.uid = some u := by
        have : PDA.findById (w :: t) v.uid = PDA.findById t v.uid := by
          show List.find? (fun u => u.uid = v.uid) (w :: t) = _
          rw [List.find?_cons_of_neg (p := fun u : PDA.User => u.uid = v.uid) _ h1]
          rfl
        rw [this] at h
        exact h
      exact ih h'

/-! ## Claim theorems -/

/-- C7: `authenticate` fails with 401 (`unauthorized`) when the token is
absent, fails with 403 (`forbidden`) when the signature is invalid or the
token is past its 1-hour lifetime, and on success exposes the id and
username decoded from the token; a token issued by `generateToken` at
`iat` expires exactly at `iat + 3600`. -/
theorem authenticate_spec (sign : PDA.Payload → Nat) (now : Nat) :
    PDA.authenticate sign now none = .unauthorized ∧
    (∀ t : PDA.Token, t.sig ≠ sign t.payload →
      PDA.authenticate sign now (some t) = .forbidden) ∧
    (∀ t : PDA.Token, t.payload.exp ≤ now →
      PDA.authenticate sign now (some t) = .forbidden) ∧
    (∀ t : PDA.Token, t.sig = sign t.payload → now < t.payload.exp →
      PDA.authenticate sign now (some t) = .ok t.payload.id t.payload.username) ∧
    (∀ uid uname iat,
      (PDA.generateToken sign iat uid uname).payload.exp = iat + 3600 ∧
      (now < iat + 3600 →
        PDA.authenticate sign now (some (PDA.generateToken sign iat uid uname)) =
          .ok uid uname) ∧
      (iat + 3600 ≤ now →
        PDA.authenticate sign now (some (PDA.generateToken sign iat uid uname)) =
          .forbidden)) := by
  refine ⟨rfl, ?_, ?_, ?_, ?_⟩
  · intro t ht
    simp [PDA.authenticate, PDA.jwtVerify, ht]
  · intro t ht
    simp [PDA.authenticate, PDA.jwtVerify, Nat.not_lt.mpr ht]
  · intro t h1 h2
    simp [PDA.authenticate, PDA.jwtVerify, h1, h2]
  · intro uid uname iat
    refine ⟨rfl, ?_, ?_⟩
    · intro h
      simp [PDA.authenticate, PDA.jwtVerify, PDA.generateToken, h]
    · intro h
      simp [PDA.authenticate, PDA.jwtVerify, PDA.generateToken, Nat.not_lt.mpr h]

/-- Witness for C7 at a concrete signing function, clock and tokens. -/
theorem authenticate_spec_witness :
    PDA.authenticate (fun p => p.id + p.exp) 5000 none = .unauthorized ∧
    PDA.authenticate (fun p => p.id + p.exp) 5000
      (some { payload := { id := 7, username := "u", exp := 9000 }, sig := 0 }) =
      .forbidden ∧
    PDA.authenticate (fun p => p.id + p.exp) 5000
      (some (PDA.generateToken (fun p => p.id + p.exp) 2000 7 "u")) = .ok 7 "u" ∧
    PDA.authenticate (fun p => p.id + p.exp) 5000
      (some (PDA.generateToken (fun p => p.id + p.exp) 1000 7 "u")) = .forbidden := by
  obtain ⟨h1, h2, _, _, h5⟩ := authenticate_spec (fun p => p.id + p.exp) 5000
  exact ⟨h1, h2 _ (by decide), (h5 7 "u" 2000).2.1 (by decide),
    (h5 7 "u" 1000).2.2 (by decide)⟩

/-- C2 (code bug): in the unnamed variant the pending-request listing
filters on the lowercase literal `pending`, but the schema enum only ever
stores `PENDING`, `ACCEPTED` or `DECLINED` — so a user holding a PENDING
request (stored exactly as the schema default spells it) receives an empty
list instead of that request. -/
theorem listPending_misses_pending_request :
    reqCarol.status = "PENDING" ∧
    reqCarol.status ∈ PDA.schemaStatuses ∧
    PDA.findById dbPend 2 = some bobPend ∧
    bobPend.friendRequests = [reqCarol] ∧
    PDA.listPending dbPend 2 = .okList [] := by
  decide

/-- C3 (code bug): the duplicate-request check shadows the Express request
object, so `sendRequest` throws (mapped to 400 by the catch) whenever the
recipient holds ANY friend-request record — here a request from the
unrelated user 3 blocks alice, whose send should have appended a PENDING
record; with an empty record list the same send succeeds and appends
exactly one PENDING record. -/
theorem sendRequest_throws_on_any_existing_record :
    (∀ r ∈ bobPend.friendRequests, r.fromId ≠ 1) ∧
    bobPend.friends = [] ∧
    PDA.sendRequest dbPend 1 2 42 =
      (.err 400 "Cannot read properties of undefined", dbPend) ∧
    PDA.sendRequest dbNoReq 1 2 42 =
      (.created,
        [alice, { bob0 with friendRequests :=
          [{ rid := 42, fromId := 1, toId := 2, status := "PENDING" }] }]) := by
  decide



/-- C1: accepting a PENDING request from A (id `a`) held by B (id `b`)
responds 200, leaves A in B's friend list and B in A's friend list, and
removes the request record from B's list, so it no longer appears in B's
pending listing. -/
theorem respond_accept_spec
    (db : PDA.DB) (a b rid : Nat) (A B : PDA.User) (req : PDA.FriendReq)
    (hA : PDA.findById db a = some A)
    (hB : PDA.findById db b = some B)
    (hab : a ≠ b)
    (hreq : B.friendRequests.find? (fun r => r.rid = rid) = some req)
    (hfrom : req.fromId = a)
    (_hstat : req.status = "PENDING") :
    (PDA.respond db b rid "ACCEPTED").1 = .okMsg "Friend request ACCEPTED." ∧
    ∃ B2 A2 : PDA.User,
      PDA.findById (PDA.respond db b rid "ACCEPTED").2 b = some B2 ∧
      PDA.findById (PDA.respond db b rid "ACCEPTED").2 a = some A2 ∧
      a ∈ B2.friends ∧ b ∈ A2.friends ∧
      (∀ r ∈ B2.friendRequests, r.rid ≠ rid) ∧
      ∃ l, PDA.listPending (PDA.respond db b rid "ACCEPTED").2 b = .okList l ∧
        ∀ r ∈ l, r.rid ≠ rid := by
  have hBuid : B.uid = b := by simpa using List.find?_some hB
  have hAuid : A.uid = a := by simpa using List.find?_some hA
  have hO1uid : (ownerStatusSet B rid "ACCEPTED").uid = b := hBuid
  have hO2uid : (ownerWithFriend B rid req.fromId).uid = b := hBuid
  have hO3uid : (ownerAcceptFinal B rid req.fromId).uid = b := hBuid
  have hS2uid : (senderWithFriend A b).uid = a := hAuid
  have hfind1 :
      PDA.findById (PDA.saveUser db (ownerStatusSet B rid "ACCEPTED"))
        req.fromId = some A := by
    rw [hfrom, findById_saveUser_ne db _ a (fun hEq => hab (hEq.trans hO1uid))]
    exact hA
  have hstep : PDA.respond db b rid "ACCEPTED" =
      (.okMsg "Friend request ACCEPTED.",
        PDA.saveUser
          (PDA.saveUser
            (PDA.saveUser (PDA.saveUser db (ownerStatusSet B rid "ACCEPTED"))
              (ownerWithFriend B rid req.fromId))
            (senderWithFriend A b))
          (ownerAcceptFinal B rid req.fromId)) := by
    have hfind1x := hfind1
    simp only [ownerStatusSet] at hfind1x
    simp only [PDA.respond, hB, hreq, ownerStatusSet, ownerWithFriend,
      senderWithFriend, ownerAcceptFinal]
    simp [hfind1x]
  have k1 : PDA.findById (PDA.saveUser db (ownerStatusSet B rid "ACCEPTED")) b =
      some (ownerStatusSet B rid "ACCEPTED") := by
    have h0 : PDA.findById db (ownerStatusSet B rid "ACCEPTED").uid = some B := by
      rw [hO1uid]; exact hB
    have h' := findById_saveUser_self db (ownerStatusSet B rid "ACCEPTED") B h0
    rw [hO1uid] at h'
    exact h'
  have k2 : PDA.findById
      (PDA.saveUser (PDA.saveUser db (ownerStatusSet B rid "ACCEPTED"))
        (ownerWithFriend B rid req.fromId)) b =
      some (ownerWithFriend B rid req.fromId) := by
    have h0 : PDA.findById (PDA.saveUser db (ownerStatusSet B rid "ACCEPTED"))
        (ownerWithFriend B rid req.fromId).uid =
        some (ownerStatusSet B rid "ACCEPTED") := by
      rw [hO2uid]; exact k1
    have h' := findById_saveUser_self _ _ _ h0
    rw [hO2uid] at h'
    exact h'
  have k3 : PDA.findById
      (PDA.saveUser
        (PDA.saveUser (PDA.saveUser db (ownerStatusSet B rid "ACCEPTED"))
          (ownerWithFriend B rid req.fromId))
        (senderWithFriend A b)) b =
      some (ownerWithFriend B rid req.fromId) := by
    rw [findById_saveUser_ne _ _ b (fun hEq => hab ((hEq.trans hS2uid).symm))]
    exact k2
  have k4 : PDA.findById
      (PDA.saveUser
        (PDA.saveUser
          (PDA.saveUser (PDA.saveUser db (ownerStatusSet B rid "ACCEPTED"))
            (ownerWithFriend B rid req.fromId))
          (senderWithFriend A b))
        (ownerAcceptFinal B rid req.fromId)) b =
      some (ownerAcceptFinal B rid req.fromId) := by
    have h0 := k3
    rw [← hO3uid] at h0
    have h' := findById_saveUser_self _ _ _ h0
    rw [hO3uid] at h'
    exact h'
  have m2 : PDA.findById
      (PDA.saveUser (PDA.saveUser db (ownerStatusSet B rid "ACCEPTED"))
        (ownerWithFriend B rid req.fromId)) a = some A := by
    rw [findById_saveUser_ne _ _ a (fun hEq => hab (hEq.trans hO2uid)),
      findById_saveUser_ne _ _ a (fun hEq => hab (hEq.trans hO1uid))]
    exact hA
  have m3 : PDA.findById
      (PDA.saveUser
        (PDA.saveUser (PDA.saveUser db (ownerStatusSet B rid "ACCEPTED"))
          (ownerWithFriend B rid req.fromId))
        (senderWithFriend A b)) a = some (senderWithFriend A b) := by
    have h0 := m2
    rw [← hS2uid] at h0
    have h' := findById_saveUser_self _ _ _ h0
    rw [hS2uid] at h'
    exact h'
  have m4 : PDA.findById
      (PDA.saveUser
        (PDA.saveUser
          (PDA.saveUser (PDA.saveUser db (ownerStatusSet B rid "ACCEPTED"))
            (ownerWithFriend B rid req.fromId))
          (senderWithFriend A b))
        (ownerAcceptFinal B rid req.fromId)) a = some (senderWithFriend A b) := by
    rw [findById_saveUser_ne _ _ a (fun hEq => hab (hEq.trans hO3uid))]
    exact m3
  have hmemO3 : ∀ r ∈ (ownerAcceptFinal B rid req.fromId).friendRequests,
      r.rid ≠ rid := by
    intro r hr
    simp only [ownerAcceptFinal, List.mem_filter] at hr
    simpa using hr.2
  rw [hstep]
  refine ⟨rfl, ownerAcceptFinal B rid req.fromId, senderWithFriend A b,
    k4, m4, ?_, ?_, hmemO3, ?_⟩
  · simp [ownerAcceptFinal, ownerWithFriend, ownerStatusSet, hfrom]
  · simp [senderWithFriend]
  · refine ⟨(ownerAcceptFinal B rid req.fromId).friendRequests.filter
      (fun r => r.status = "pending"), ?_, ?_⟩
    · simp only [PDA.listPending, k4]
    · intro r hr
      exact hmemO3 r (List.mem_filter.mp hr).1

/-- Witness for C1 on a concrete collection: bob (id 2) accepts the
PENDING request with subdocument id 10 from alice (id 1). -/
theorem respond_accept_spec_witness :
    (PDA.respond dbFromAlice 2 10 "ACCEPTED").1 =
      .okMsg "Friend request ACCEPTED." ∧
    ∃ B2 A2 : PDA.User,
      PDA.findById (PDA.respond dbFromAlice 2 10 "ACCEPTED").2 2 = some B2 ∧
      PDA.findById (PDA.respond dbFromAlice 2 10 "ACCEPTED").2 1 = some A2 ∧
      1 ∈ B2.friends ∧ 2 ∈ A2.friends ∧
      (∀ r ∈ B2.friendRequests, r.rid ≠ 10) ∧
      ∃ l, PDA.listPending (PDA.respond dbFromAlice 2 10 "ACCEPTED").2 2 =
          .okList l ∧ ∀ r ∈ l, r.rid ≠ 10 :=
  respond_accept_spec dbFromAlice 1 2 10 alice bobFromAlice reqAlice
    (by decide) (by decide) (by decide) (by decide) (by decide) (by decide)

/-- C4: declining a PENDING request held by B (id `b`, sent by A, id `a`)
responds 200, removes the record from B's list (so it no longer appears in
the pending listing) and leaves both friend lists unchanged: B keeps
exactly the friends B had, and A's stored document is untouched. -/
theorem respond_decline_spec
    (db : PDA.DB) (a b rid : Nat) (A B : PDA.User) (req : PDA.FriendReq)
    (hA : PDA.findById db a = some A)
    (hB : PDA.findById db b = some B)
    (hab : a ≠ b)
    (hreq : B.friendRequests.find? (fun r => r.rid = rid) = some req)
    (_hfrom : req.fromId = a)
    (_hstat : req.status = "PENDING") :
    (PDA.respond db b rid "DECLINED").1 = .okMsg "Friend request DECLINED." ∧
    ∃ B2 : PDA.User,
      PDA.findById (PDA.respond db b rid "DECLINED").2 b = some B2 ∧
      B2.friends = B.friends ∧
      (∀ r ∈ B2.friendRequests, r.rid ≠ rid) ∧
      PDA.findById (PDA.respond db b rid "DECLINED").2 a = some A ∧
      ∃ l, PDA.listPending (PDA.respond db b rid "DECLINED").2 b = .okList l ∧
        ∀ r ∈ l, r.rid ≠ rid := by
  have hBuid : B.uid = b := by simpa using List.find?_some hB
  have hO1uid : (ownerStatusSet B rid "DECLINED").uid = b := hBuid
  have hODuid : (ownerDeclineFinal B rid).uid = b := hBuid
  have hstep : PDA.respond db b rid "DECLINED" =
      (.okMsg "Friend request DECLINED.",
        PDA.saveUser (PDA.saveUser db (ownerStatusSet B rid "DECLINED"))
          (ownerDeclineFinal B rid)) := by
    simp only [PDA.respond, hB, hreq, ownerStatusSet, ownerDeclineFinal]
    simp
  have k1 : PDA.findById (PDA.saveUser db (ownerStatusSet B rid "DECLINED")) b =
      some (ownerStatusSet B rid "DECLINED") := by
    have h0 : PDA.findById db (ownerStatusSet B rid "DECLINED").uid = some B := by
      rw [hO1uid]; exact hB
    have h' := findById_saveUser_self db (ownerStatusSet B rid "DECLINED") B h0
    rw [hO1uid] at h'
    exact h'
  have k2 : PDA.findById
      (PDA.saveUser (PDA.saveUser db (ownerStatusSet B rid "DECLINED"))
        (ownerDeclineFinal B rid)) b = some (ownerDeclineFinal B rid) := by
    have h0 := k1
    rw [← hODuid] at h0
    have h' := findById_saveUser_self _ _ _ h0
    rw [hODuid] at h'
    exact h'
  have m : PDA.findById
      (PDA.saveUser (PDA.saveUser db (ownerStatusSet B rid "DECLINED"))
        (ownerDeclineFinal B rid)) a = some A := by
    rw [findById_saveUser_ne _ _ a (fun hEq => hab (hEq.trans hODuid)),
      findById_saveUser_ne _ _ a (fun hEq => hab (hEq.trans hO1uid))]
    exact hA
  have hmem : ∀ r ∈ (ownerDeclineFinal B rid).friendRequests, r.rid ≠ rid := by
    intro r hr
    simp only [ownerDeclineFinal, List.mem_filter] at hr
    simpa using hr.2
  rw [hstep]
  refine ⟨rfl, ownerDeclineFinal B rid, k2, rfl, hmem, m, ?_⟩
  refine ⟨(ownerDeclineFinal B rid).friendRequests.filter
    (fun r => r.status = "pending"), ?_, ?_⟩
  · simp only [PDA.listPending, k2]
  · intro r hr
    exact hmem r (List.mem_filter.mp hr).1

/-- Witness for C4 on a concrete collection: bob (id 2) declines the
PENDING request with subdocument id 10 from alice (id 1). -/
theorem respond_decline_spec_witness :
    (PDA.respond dbFromAlice 2 10 "DECLINED").1 =
      .okMsg "Friend request DECLINED." ∧
    ∃ B2 : PDA.User,
      PDA.findById (PDA.respond dbFromAlice 2 10 "DECLINED").2 2 = some B2 ∧
      B2.friends = bobFromAlice.friends ∧
      (∀ r ∈ B2.friendRequests, r.rid ≠ 10) ∧
      PDA.findById (PDA.respond dbFromAlice 2 10 "DECLINED").2 1 = some alice ∧
      ∃ l, PDA.listPending (PDA.respond dbFromAlice 2 10 "DECLINED").2 2 =
          .okList l ∧ ∀ r ∈ l, r.rid ≠ 10 :=
  respond_decline_spec dbFromAlice 1 2 10 alice bobFromAlice reqAlice
    (by decide) (by decide) (by decide) (by decide) (by decide) (by decide)

/-- Saving a mutated user document makes the lookup by its (unchanged)
username return the mutated document. -/
theorem findOneByUsername_saveUser (db : SJ.DB) (u u2 : SJ.User)
    (username : String)
    (h : SJ.findOneByUsername db username = some u)
    (huid : u2.uid = u.uid) (hname : u2.username = username) :
    SJ.findOneByUsername (SJ.saveUser db u2) username = some u2 := by
  induction db with
  | nil => simp [SJ.findOneByUsername] at h
  | cons w t ih =>
    show List.find? (fun v => v.username = username)
        ((if w.uid = u2.uid then u2 else w) :: SJ.saveUser t u2) = some u2
    by_cases hw : w.uid = u2.uid
    · rw [if_pos hw]
      exact List.find?_cons_of_pos
        (p := fun v : SJ.User => v.username = username) _ (by simp [hname])
    · rw [if_neg hw]
      by_cases hwn : w.username = username
      · exfalso
        have hww : List.find? (fun v : SJ.User => v.username = username) (w :: t) =
            some w :=
          List.find?_cons_of_pos _ (by simp [hwn])
        have h2 := h
        rw [show SJ.findOneByUsername (w :: t) username = some w from hww] at h2
        have hwu : w = u := Option.some.inj h2
        exact hw (by rw [hwu, ← huid])
      · have h1 : ¬ ((decide (w.username = username)) = true) := by simp [hwn]
        rw [List.find?_cons_of_neg
          (p := fun v : SJ.User => v.username = username) _ h1]
        apply ih
        have hstep : SJ.findOneByUsername (w :: t) username =
            SJ.findOneByUsername t username := by
          show List.find? (fun v : SJ.User => v.username = username) (w :: t) = _
          rw [List.find?_cons_of_neg
            (p := fun v : SJ.User => v.username = username) _ h1]
          rfl
        rw [hstep] at h
        exact h

/-- C5: `login` responds 404 (`notFound`) when no user carries the
username, 401 (`unauthorized`) when the password does not hash to the
stored hash, and on success stores the user with the last-login timestamp
set to the current instant and the online flag true, returning a signed
token plus that user record. -/
theorem login_spec (bhash : String → String) (sign : PDA.Payload → Nat)
    (db : SJ.DB) (now : Nat) (username password : String) :
    (SJ.findOneByUsername db username = none →
      SJ.login bhash sign db now username password = (.notFound, db)) ∧
    (∀ u, SJ.findOneByUsername db username = some u →
      bhash password ≠ u.passwordHash →
      SJ.login bhash sign db now username password = (.unauthorized, db)) ∧
    (∀ u, SJ.findOneByUsername db username = some u →
      bhash password = u.passwordHash →
      SJ.login bhash sign db now username password =
        (.ok (PDA.generateToken sign now u.uid u.username)
            { u with lastLogin := some now, isOnline := true },
          SJ.saveUser db { u with lastLogin := some now, isOnline := true }) ∧
      ({ u with lastLogin := some now, isOnline := true } : SJ.User).isOnline
          = true ∧
      ({ u with lastLogin := some now, isOnline := true } : SJ.User).lastLogin
          = some now ∧
      SJ.findOneByUsername
          (SJ.saveUser db { u with lastLogin := some now, isOnline := true })
          username =
        some { u with lastLogin := some now, isOnline := true }) := by
  refine ⟨?_, ?_, ?_⟩
  · intro h
    simp [SJ.login, h]
  · intro u h hne
    simp [SJ.login, h, hne]
  · intro u h heq
    have hname : u.username = username := by simpa using List.find?_some h
    refine ⟨by simp [SJ.login, h, heq], rfl, rfl, ?_⟩
    exact findOneByUsername_saveUser db u _ username h rfl hname

/-- Witness for C5 with the concrete hash `fun s => "hash:" ++ s`: an
unknown username gives 404, a wrong password gives 401, and the correct
credentials store the user online with the login instant recorded. -/
theorem login_spec_witness :
    SJ.login (fun s => "hash:" ++ s) (fun p => p.id) [sjAlice] 100 "bob" "pw" =
      (.notFound, [sjAlice]) ∧
    SJ.login (fun s => "hash:" ++ s) (fun p => p.id) [sjAlice] 100 "alice" "xx" =
      (.unauthorized, [sjAlice]) ∧
    SJ.login (fun s => "hash:" ++ s) (fun p => p.id) [sjAlice] 100 "alice" "pw" =
      (.ok (PDA.generateToken (fun p => p.id) 100 1 "alice")
          { sjAlice with lastLogin := some 100, isOnline := true },
        SJ.saveUser [sjAlice]
          { sjAlice with lastLogin := some 100, isOnline := true }) ∧
    SJ.findOneByUsername
        (SJ.saveUser [sjAlice]
          { sjAlice with lastLogin := some 100, isOnline := true }) "alice" =
      some { sjAlice with lastLogin := some 100, isOnline := true } := by
  obtain ⟨h1, h2, h3⟩ :=
    login_spec (fun s => "hash:" ++ s) (fun p => p.id) [sjAlice] 100 "alice" "pw"
  obtain ⟨h4, _, _, h5⟩ := h3 sjAlice (by decide) (by decide)
  refine ⟨?_, ?_, h4, h5⟩
  · exact (login_spec (fun s => "hash:" ++ s) (fun p => p.id) [sjAlice] 100
      "bob" "pw").1 (by decide)
  · exact (login_spec (fun s => "hash:" ++ s) (fun p => p.id) [sjAlice] 100
      "alice" "xx").2.1 sjAlice (by decide) (by decide)

/-- C6: `register` fails when the username is already taken (the unique
index rejects the save; a second registration with the same username
therefore fails), the created user stores the salted hash and not the
plaintext password (when the hash is not the identity on this password and
the password does not coincide with the username or the external id, the
password is among none of the stored string fields), and success returns a
signed token together with the created user record. -/
theorem register_spec (bhash : String → String) (sign : PDA.Payload → Nat)
    (db : SJ.DB) (now : Nat) (username password steamId : String) (newId : Nat) :
    (db.any (fun v => v.username = username) = true →
      SJ.register bhash sign db now username password steamId newId =
        (.badRequest, db)) ∧
    (db.any (fun v => v.username = username) = false →
      SJ.register bhash sign db now username password steamId newId =
        (.created (PDA.generateToken sign now newId username)
            (regUser bhash username password steamId newId),
          db ++ [regUser bhash username password steamId newId]) ∧
      SJ.storedStrings (regUser bhash username password steamId newId) =
        [username, steamId, bhash password] ∧
      (bhash password ≠ password → password ≠ username → password ≠ steamId →
        password ∉
          SJ.storedStrings (regUser bhash username password steamId newId)) ∧
      (∀ password2 steamId2 newId2 now2,
        (SJ.register bhash sign
          (db ++ [regUser bhash username password steamId newId])
          now2 username password2 steamId2 newId2).1 = .badRequest)) := by
  constructor
  · intro h
    simp [SJ.register, h]
  · intro h
    refine ⟨by simp [SJ.register, regUser, h], rfl, ?_, ?_⟩
    · intro h1 h2 h3
      simp only [SJ.storedStrings, regUser, List.mem_cons, List.not_mem_nil,
        or_false]
      push_neg
      exact ⟨h2, h3, fun hEq => h1 hEq.symm⟩
    · intro password2 steamId2 newId2 now2
      have hany : (db ++ [regUser bhash username password steamId newId]).any
          (fun v => v.username = username) = true := by
        simp [List.any_append, regUser]
      simp [SJ.register, hany]

/-- Witness for C6 with the concrete hash `fun s => "hash:" ++ s`: a fresh
registration of `alice` succeeds, stores only `["alice", "s1", "hash:pw"]`
with the plaintext `pw` among none of them, and a second registration of
`alice` fails. -/
theorem register_spec_witness :
    SJ.register (fun s => "hash:" ++ s) (fun p => p.id) [] 0 "alice" "pw" "s1" 1 =
      (.created (PDA.generateToken (fun p => p.id) 0 1 "alice")
          (regUser (fun s => "hash:" ++ s) "alice" "pw" "s1" 1),
        [regUser (fun s => "hash:" ++ s) "alice" "pw" "s1" 1]) ∧
    SJ.storedStrings (regUser (fun s => "hash:" ++ s) "alice" "pw" "s1" 1) =
      ["alice", "s1", "hash:pw"] ∧
    "pw" ∉ SJ.storedStrings (regUser (fun s => "hash:" ++ s) "alice" "pw" "s1" 1) ∧
    (SJ.register (fun s => "hash:" ++ s) (fun p => p.id)
      ([] ++ [regUser (fun s => "hash:" ++ s) "alice" "pw" "s1" 1])
      7 "alice" "other" "s2" 2).1 = .badRequest := by
  obtain ⟨-, h⟩ :=
    register_spec (fun s => "hash:" ++ s) (fun p => p.id) [] 0 "alice" "pw" "s1" 1
  obtain ⟨h1, h2, h3, h4⟩ := h (by decide)
  exact ⟨h1, h2, h3 (by decide) (by decide) (by decide), h4 "other" "s2" 2 7⟩

/-- C8: the global-message listing pages with skip `(page-1)*limit`, its
`totalPages` is the ceiling of `totalMessages / limit` (characterized by
`totalMessages ≤ totalPages*limit < totalMessages + limit`), each page
holds at most `limit` messages sorted newest-first; and over the 25
broadcast messages of `exMsgs` with `limit = 10` the listing reports
`totalPages = 3` with pages of sizes 10, 10, 5 (and page 4 empty), each
page descending by creation timestamp. -/
theorem messagesGlobal_spec (msgs : List SJ.Message) (page limit : Nat)
    (hl : 0 < limit) :
    (SJ.messagesGlobal msgs page limit).2 =
      ((List.insertionSort SJ.newestFirst
        (msgs.filter (fun m => m.recipientId = none))).drop
          ((page - 1) * limit)).take limit ∧
    (SJ.messagesGlobal msgs page limit).1.totalMessages ≤
      (SJ.messagesGlobal msgs page limit).1.totalPages * limit ∧
    (SJ.messagesGlobal msgs page limit).1.totalPages * limit <
      (SJ.messagesGlobal msgs page limit).1.totalMessages + limit ∧
    (SJ.messagesGlobal msgs page limit).2.length ≤ limit ∧
    (SJ.messagesGlobal msgs page limit).2.Pairwise
      (fun a b : SJ.Message => b.createdAt ≤ a.createdAt) ∧
    ((SJ.messagesGlobal exMsgs 1 10).1.totalMessages = 25 ∧
      (SJ.messagesGlobal exMsgs 1 10).1.totalPages = 3 ∧
      ((SJ.messagesGlobal exMsgs 1 10).2.map (fun m => m.createdAt)) =
        [24, 23, 22, 21, 20, 19, 18, 17, 16, 15] ∧
      ((SJ.messagesGlobal exMsgs 2 10).2.map (fun m => m.createdAt)) =
        [14, 13, 12, 11, 10, 9, 8, 7, 6, 5] ∧
      ((SJ.messagesGlobal exMsgs 3 10).2.map (fun m => m.createdAt)) =
        [4, 3, 2, 1, 0] ∧
      (SJ.messagesGlobal exMsgs 4 10).2 = []) := by
  have hceil : ∀ N : Nat,
      N ≤ SJ.jsCeilDiv N limit * limit ∧
      SJ.jsCeilDiv N limit * limit < N + limit := by
    intro N
    unfold SJ.jsCeilDiv
    have h1 : (N + limit - 1) / limit * limit ≤ N + limit - 1 :=
      Nat.div_mul_le_self _ _
    have h2 : N + limit - 1 < (N + limit - 1) / limit * limit + limit := by
      have h3 : N + limit - 1 < ((N + limit - 1) / limit + 1) * limit :=
        (Nat.div_lt_iff_lt_mul hl).1 (Nat.lt_succ_self _)
      calc N + limit - 1 < ((N + limit - 1) / limit + 1) * limit := h3
        _ = (N + limit - 1) / limit * limit + limit := by rw [Nat.succ_mul]
    generalize (N + limit - 1) / limit * limit = m at h1 h2 ⊢
    omega
  refine ⟨rfl, (hceil _).1, (hceil _).2, ?_, ?_, by decide⟩
  · show (((List.insertionSort SJ.newestFirst
        (msgs.filter (fun m => m.recipientId = none))).drop
          ((page - 1) * limit)).take limit).length ≤ limit
    rw [List.length_take]
    exact min_le_left _ _
  · have hp : (List.insertionSort SJ.newestFirst
        (msgs.filter (fun m => m.recipientId = none))).Pairwise
        SJ.newestFirst :=
      List.sorted_insertionSort SJ.newestFirst _
    have hpd := List.Pairwise.sublist
      (List.drop_sublist ((page - 1) * limit) _) hp
    exact List.Pairwise.sublist (List.take_sublist limit _) hpd

/-- Witness for C8 at the concrete 25-message collection with page 2 and
limit 10. -/
theorem messagesGlobal_spec_witness :
    (0 : Nat) < 10 ∧
    (SJ.messagesGlobal exMsgs 2 10).2.length ≤ 10 ∧
    (SJ.messagesGlobal exMsgs 2 10).2.Pairwise
      (fun a b : SJ.Message => b.createdAt ≤ a.createdAt) ∧
    (SJ.messagesGlobal exMsgs 1 10).1.totalPages = 3 := by
  have h := messagesGlobal_spec exMsgs 2 10 (by decide)
  exact ⟨by decide, h.2.2.2.1, h.2.2.2.2.1, h.2.2.2.2.2.2.1⟩

/-- Dropping every binding of key `k` does not change lookups of other
keys. -/
theorem objGet_filter_ne (o : PDA.JObj) (k k2 : String) (hne : k2 ≠ k) :
    PDA.objGet (o.filter (fun p => p.1 ≠ k)) k2 = PDA.objGet o k2 := by
  induction o with
  | nil => rfl
  | cons p t ih =>
    rw [List.filter_cons]
    by_cases hp : p.1 = k
    · have hc : (decide (p.1 ≠ k)) = false := by simp [hp]
      rw [hc]
      simp only [Bool.false_eq_true, if_false]
      have hk2 : ¬ ((decide (p.1 = k2)) = true) := by simp [hp, Ne.symm hne]
      have hstep : PDA.objGet (p :: t) k2 = PDA.objGet t k2 := by
        unfold PDA.objGet
        rw [List.find?_cons_of_neg
          (p := fun q : String × String => q.1 = k2) _ hk2]
      rw [hstep]
      exact ih
    · have hc : (decide (p.1 ≠ k)) = true := by simp [hp]
      rw [hc]
      simp only [if_true]
      by_cases hk2 : p.1 = k2
      · have hpos : (decide (p.1 = k2)) = true := by simp [hk2]
        unfold PDA.objGet
        rw [List.find?_cons_of_pos
            (p := fun q : String × String => q.1 = k2) _ hpos,
          List.find?_cons_of_pos
            (p := fun q : String × String => q.1 = k2) _ hpos]
      · have hneg : ¬ ((decide (p.1 = k2)) = true) := by simp [hk2]
        have hstep1 : PDA.objGet (p :: (t.filter (fun q => q.1 ≠ k))) k2 =
            PDA.objGet (t.filter (fun q => q.1 ≠ k)) k2 := by
          unfold PDA.objGet
          rw [List.find?_cons_of_neg
            (p := fun q : String × String => q.1 = k2) _ hneg]
        have hstep2 : PDA.objGet (p :: t) k2 = PDA.objGet t k2 := by
          unfold PDA.objGet
          rw [List.find?_cons_of_neg
            (p := fun q : String × String => q.1 = k2) _ hneg]
        rw [hstep1, hstep2]
        exact ih

/-- The `userId` of `{ ...o, userId: v }`-style objects is `v`. -/
theorem objGet_spreadSet_self (o : PDA.JObj) (k v : String) :
    PDA.objGet (PDA.spreadSet o k v) k = some v := by
  unfold PDA.objGet PDA.spreadSet
  rw [List.find?_append]
  have h1 : (o.filter (fun p => p.1 ≠ k)).find?
      (fun p : String × String => p.1 = k) = none := by
    rw [List.find?_eq_none]
    intro x hx
    simpa using (List.mem_filter.mp hx).2
  rw [h1]
  simp

/-- Lookups of keys other than `k` in `{ ...o, k: v }` fall through to
`o`. -/
theorem objGet_spreadSet_ne (o : PDA.JObj) (k v k2 : String) (h : k2 ≠ k) :
    PDA.objGet (PDA.spreadSet o k v) k2 = PDA.objGet o k2 := by
  have hfix := objGet_filter_ne o k k2 h
  unfold PDA.objGet PDA.spreadSet
  rw [List.find?_append]
  have h2 : List.find? (fun p : String × String => p.1 = k2) [(k, v)] =
      none := by
    simp [Ne.symm h]
  rw [h2, Option.or_none]
  unfold PDA.objGet at hfix
  exact hfix

/-- C10: the message stored by `POST /messages` carries as `userId` the id
decoded from the verified token, whatever `userId` the body supplied: for
two bodies agreeing on every key except `userId`, both stored documents
carry the token id as author, and all their fields agree. -/
theorem postMessage_author_from_token (b1 b2 : PDA.JObj) (auth : String)
    (h : ∀ k, k ≠ "userId" → PDA.objGet b1 k = PDA.objGet b2 k) :
    PDA.objGet (PDA.newMessageDoc b1 auth) "userId" = some auth ∧
    PDA.objGet (PDA.newMessageDoc b2 auth) "userId" = some auth ∧
    (∀ k, PDA.objGet (PDA.newMessageDoc b1 auth) k =
      PDA.objGet (PDA.newMessageDoc b2 auth) k) := by
  refine ⟨objGet_spreadSet_self b1 "userId" auth,
    objGet_spreadSet_self b2 "userId" auth, ?_⟩
  intro k
  by_cases hk : k = "userId"
  · rw [hk, PDA.newMessageDoc, PDA.newMessageDoc,
      objGet_spreadSet_self b1 "userId" auth,
      objGet_spreadSet_self b2 "userId" auth]
  · rw [PDA.newMessageDoc, PDA.newMessageDoc,
      objGet_spreadSet_ne b1 "userId" auth k hk,
      objGet_spreadSet_ne b2 "userId" auth k hk]
    exact h k hk

/-- Witness for C10: a body smuggling `userId: 999` and the same body
without it produce documents whose author is the token id `7` and whose
`content` agrees. -/
theorem postMessage_author_from_token_witness :
    PDA.objGet (PDA.newMessageDoc [("userId", "999"), ("content", "hi")] "7")
      "userId" = some "7" ∧
    PDA.objGet (PDA.newMessageDoc [("content", "hi")] "7") "userId" =
      some "7" ∧
    PDA.objGet (PDA.newMessageDoc [("userId", "999"), ("content", "hi")] "7")
        "content" =
      PDA.objGet (PDA.newMessageDoc [("content", "hi")] "7") "content" := by
  have h := postMessage_author_from_token
    [("userId", "999"), ("content", "hi")] [("content", "hi")] "7" ?_
  · exact ⟨h.1, h.2.1, h.2.2 "content"⟩
  · intro k hk
    unfold PDA.objGet
    rw [List.find?_cons_of_neg
      (p := fun q : String × String => q.1 = k) _ (by simpa using Ne.symm hk)]

/-- C9 counterexample: `POST /users` is registered without the
`authenticate` middleware, is neither register nor login, and a request
with no token still reaches its store write — concretely, it inserts a
user into the empty collection. -/
theorem createUser_bypasses_auth :
    PDA.Route.createUser ≠ PDA.Route.authRegister ∧
    PDA.Route.createUser ≠ PDA.Route.authLogin ∧
    PDA.authenticate (fun p => p.id) 0 none = .unauthorized ∧
    PDA.storeOpOnRequest (fun p => p.id) 0 PDA.Route.createUser none = true ∧
    PDA.createUser [] alice = (.created, [alice]) := by
  decide

/-- C9 amended: every route other than register, login and `POST /users`
carries the `authenticate` middleware, so a request whose token the
gateway does not accept performs no store operation. -/
theorem authGate_amended (sign : PDA.Payload → Nat) (now : Nat)
    (r : PDA.Route) (tok : Option PDA.Token)
    (hreg : r ≠ .authRegister) (hlog : r ≠ .authLogin)
    (husr : r ≠ .createUser)
    (hrej : ∀ i u, PDA.authenticate sign now tok ≠ .ok i u) :
    PDA.storeOpOnRequest sign now r tok = false := by
  have hmw : PDA.hasAuthMiddleware r = true := by
    cases r <;> simp_all [PDA.hasAuthMiddleware]
  unfold PDA.storeOpOnRequest
  rw [hmw]
  cases hauth : PDA.authenticate sign now tok with
  | unauthorized => simp
  | forbidden => simp
  | ok i u => exact absurd hauth (hrej i u)

/-- Witness for C9 amended: `POST /messages` with no token performs no
store operation. -/
theorem authGate_amended_witness :
    PDA.storeOpOnRequest (fun p => p.id) 0 PDA.Route.postMessage none =
      false :=
  authGate_amended (fun p => p.id) 0 PDA.Route.postMessage none
    (by decide) (by decide) (by decide)
    (fun i u h => by simp [PDA.authenticate] at h)
